import Mathlib

/-!
Verification development for the YapDEVS classic-DEVS simulation engine
(src/classic_devs.py, src/sim_msg.py, src/generator.py, src/processor.py,
src/procgen.py).  Every definition below is a shallow embedding translated
from the Python source; the line numbers in the comments refer to
src/classic_devs.py unless another file is named.

Simulated time is modelled as the integers extended with +infinity
(WithTop Int): all times occurring in the repository examples are integral,
the root coordinator starts at time_last = -1, and a passive model has
time advance +infinity.
-/

namespace YapDevs

/-- Simulated time: an integer or +infinity (Python float/inf). -/
abbrev Time := WithTop ℤ

/-- Time subtraction, used for elapsed = mtime - time_last in onIN
(line 551).  Both arguments are finite whenever the source evaluates it. -/
def tsub (a b : Time) : Time :=
  WithTop.recTopCoe ⊤ (fun x => WithTop.recTopCoe ⊤ (fun y => ((x - y : ℤ) : Time)) b) a

/-- Run-time failures of the engine, one constructor per distinct Python
raise site (or raw dictionary/attribute failure) that the embedded code can
hit.  The payload of each constructor is the data interpolated into the
corresponding Python exception message. -/
inductive SimErr : Type
  /-- A phase-suffixed callback is absent (the getattr fallback lambda of
  lines 313-347 raising a missing-method Exception). -/
  | missingMethod (name : String)
  /-- Line 538: Star message requested at a time that is not reached yet. -/
  | starTiming
  /-- Lines 550 and 833: In message requested at wrong time. -/
  | inTiming
  /-- An inherited pure-virtual handler was invoked (NotImplementedError). -/
  | notImpl (name : String)
  /-- A raw Python dict lookup failed (KeyError), carrying the key. -/
  | keyError (key : String)
  /-- Line 823: select returned a winner that is not in the candidate set
  (TypeError; the message does not mention the candidate set). -/
  | selectNotInSet
  /-- Line 825: select was not able to find a winner among the candidates
  (Exception; the message interpolates the candidate set). -/
  | selectNoWinner (nameSet : List String)
  /-- Line 666: invalid coupling spec (raised by decodeRangeSpec when the
  spec regex does not match). -/
  | invalidSpec (spec : String)
  deriving DecidableEq, Repr

/-! ## Coupling resolver (ClassicDevsCoupledModel, lines 634-690) -/

/-- Python regex word character (backslash-w); the model names of this
repository are ASCII alphanumeric. -/
def wordChar (c : Char) : Bool := c.isAlphanum || c == '_'

/-- Matches a model name against the pattern of line 647,
caret (base: word chars)(colon (num: digits))? as re.match does (prefix
match, no end anchor); returns (base, optional numeric suffix), or none if
the name does not start with a word character (in which case line 651
would fail with an AttributeError on the None match object). -/
def matchBaseNum (mname : String) : Option (String × Option String) :=
  let cs := mname.data
  let base := cs.takeWhile wordChar
  if base.isEmpty then none
  else
    match cs.drop base.length with
    | ':' :: rest =>
        let num := rest.takeWhile Char.isDigit
        if num.isEmpty then some (String.mk base, none)
        else some (String.mk base, some (String.mk num))
    | _ => some (String.mk base, none)

/-- Python string less-than: lexicographic comparison by code point.
The source compares the digit strings first, num, last with this order on
line 657 (the regex groups are str values, never converted to int). -/
def charsLt : List Char → List Char → Bool
  | [], [] => false
  | [], _ :: _ => true
  | _ :: _, [] => false
  | a :: as, b :: bs =>
      if a.val < b.val then true
      else if b.val < a.val then false
      else charsLt as bs

/-- Python string less-than on String values. -/
def strLtPy (a b : String) : Bool := charsLt a.data b.data

/-- Python string less-or-equal (total order: a le b iff not b lt a). -/
def strLePy (a b : String) : Bool := !(strLtPy b a)

/-- ClassicDevsCoupledModel.findMatchingNumberedModels (lines 640-661):
scan the instantiated submodel names for those matching either the bare
name (when no range was given) or a numbered replica whose digit suffix
lies in the half-open range [first, last) UNDER PYTHON STRING COMPARISON.
subNames is the list of submodel dict keys in insertion order. -/
def findMatchingNumberedModels (subNames : List String) (name : String)
    (first last : Option String) : Except SimErr (List String) :=
  if name == "self" then .ok ["self"]
  else
    subNames.foldlM (fun acc mname => do
      match matchBaseNum mname with
      | none => .error (.missingMethod "AttributeError")
      | some (base, num) =>
          -- the subsequent `if m:` of line 653 is always true on this path
          if first.isSome && last.isSome && num.isSome && base == name then
            -- keep only if number in spec range: first <= num < last,
            -- a comparison of strings (line 657)
            if strLePy (first.getD "") (num.getD "")
                && strLtPy (num.getD "") (last.getD "") then
              .ok (acc ++ [mname])
            else .ok acc
          else if first.isNone && name == mname then .ok (acc ++ [mname])
          else .ok acc) []

/-- ClassicDevsCoupledModel.decodeRangeSpec (lines 663-667): parse a
coupling spec against the anchored pattern
caret (name: word chars (colon digits)?)(bracket (first: digits) colon
(last: digits) close-bracket)? dollar; a non-match raises (invalidSpec). -/
def decodeRangeSpec (spec : String) : Except SimErr (String × Option String × Option String) :=
  let cs := spec.data
  let base := cs.takeWhile wordChar
  if base.isEmpty then .error (.invalidSpec spec)
  else
    let afterBase := cs.drop base.length
    let nameRest : List Char × List Char :=
      match afterBase with
      | ':' :: r =>
          let num := r.takeWhile Char.isDigit
          if num.isEmpty then (base, afterBase)
          else (base ++ ':' :: num, r.drop num.length)
      | _ => (base, afterBase)
    match nameRest.2 with
    | [] => .ok (String.mk nameRest.1, none, none)
    | '[' :: r1 =>
        let f := r1.takeWhile Char.isDigit
        if f.isEmpty then .error (.invalidSpec spec)
        else
          match r1.drop f.length with
          | ':' :: r2 =>
              let l := r2.takeWhile Char.isDigit
              if l.isEmpty then .error (.invalidSpec spec)
              else
                match r2.drop l.length with
                | [']'] => .ok (String.mk nameRest.1, some (String.mk f), some (String.mk l))
                | _ => .error (.invalidSpec spec)
          | _ => .error (.invalidSpec spec)
    | _ => .error (.invalidSpec spec)

/-- Routing-table lookup: couplings is a Python dict from source name to a
list of destination names, modelled as an association list in key
insertion order. -/
def lookupTbl (tbl : List (String × List String)) (k : String) : Option (List String) :=
  (tbl.find? (fun e => e.1 == k)).map Prod.snd

/-- ClassicDevsCoupledModel.createCoupling (lines 634-638): previous =
couplings.get(src, []); append dst if not already present; store back. -/
def tblInsert (tbl : List (String × List String)) (src dst : String) :
    List (String × List String) :=
  match lookupTbl tbl src with
  | none => tbl ++ [(src, [dst])]
  | some prev =>
      let prev' := if prev.contains dst then prev else prev ++ [dst]
      tbl.map (fun e => if e.1 == src then (e.1, prev') else e)

/-- ClassicDevsCoupledModel.createCouplings (lines 670-682): for each
coupling pair decode and expand the source spec, then for each destination
spec decode and expand it and insert every (source match, destination
match) pair into the table. -/
def createCouplings (subNames : List String) (specs : List (String × List String)) :
    Except SimErr (List (String × List String)) :=
  specs.foldlM (fun tbl coupling => do
    let (srcName, srcFirst, srcLast) ← decodeRangeSpec coupling.1
    let srcMatches ← findMatchingNumberedModels subNames srcName srcFirst srcLast
    coupling.2.foldlM (fun tbl dst => do
      let (dstName, dstFirst, dstLast) ← decodeRangeSpec dst
      let dstMatches ← findMatchingNumberedModels subNames dstName dstFirst dstLast
      .ok (srcMatches.foldl (fun tbl s =>
            dstMatches.foldl (fun tbl d => tblInsert tbl s d) tbl) tbl)) tbl) []

/-! ## Select / tie-break engine (lines 692-725) and its use in onSTAR
(lines 820-826) -/

/-- Python set equality between two string sets represented as lists. -/
def setEqL (a b : List String) : Bool := a.all (b.contains ·) && b.all (a.contains ·)

/-- gather_match_from_spec (lines 702-717): for each pattern of the spec
candidate set, collect the members of nameSet fully matching it; if some
pattern matches nothing, the spec is a mismatch (None).  fm abstracts
re.fullmatch on a pattern and a candidate name. -/
def gatherMatchFromSpec (fm : String → String → Bool) (nameSet specSet : List String) :
    Option (List String) :=
  specSet.foldl (fun acc item =>
    match acc with
    | none => none
    | some found =>
        let matchIn := nameSet.filter (fun n => fm item n)
        if matchIn.isEmpty then none else some (found ++ matchIn)) (some [])

/-- ClassicDevsCoupledModel.select (lines 692-725): first the exact
set-equality pass over the select specs in order, then the pattern pass;
a Python False result (no spec matched) is modelled as none. -/
def cdSelect (fm : String → String → Bool) (specs : List (List String × String))
    (nameSet : List String) : Option String :=
  match specs.find? (fun sp => setEqL nameSet sp.1) with
  | some sp => some sp.2
  | none =>
      match specs.find? (fun sp =>
          match gatherMatchFromSpec fm nameSet sp.1 with
          | none => false
          | some found => setEqL nameSet found) with
      | some sp => some sp.2
      | none => none

/-- Python membership of the select result in a set of strings: the False
sentinel (none) is never a member of a set of strings. -/
def pyMem : Option String → List String → Bool
  | none, _ => false
  | some s, l => l.contains s

/-- Python truthiness of the select result: False and the empty string are
falsy, any other string is truthy. -/
def pyFalsy : Option String → Bool
  | none => true
  | some s => s == ""

/-- The winner validation of ClassicDevsCoupledSimulator.onSTAR
(lines 820-825), applied to the value returned by select: first
`if not winner_name in this_set: raise TypeError(...)` (a message without
the candidate set), then `if not winner_name: raise Exception(... nameSet)`
(the message that does interpolate the set). -/
def checkWinner (w : Option String) (thisSet : List String) : Except SimErr String :=
  if ¬ pyMem w thisSet then .error .selectNotInSet
  else if pyFalsy w then .error (.selectNoWinner thisSet)
  else
    match w with
    | some s => .ok s
    | none => .error .selectNotInSet   -- unreachable: pyMem none thisSet = false

/-! ## Coupled-simulator routing fragments (lines 831-853) -/

/-- A routing action computed by onOUT: forward to the parent (destination
self) or deliver as an IN message to the named child. -/
inductive RAct : Type
  | toParent
  | toChild (name : String)
  deriving DecidableEq, Repr

/-- The routing decision of ClassicDevsCoupledSimulator.onOUT
(lines 842-853): if the FIRST component of the (port, body) payload pair
is None the message is dropped (line 843 tests param[0]); otherwise the
couplings entry for the emitting model name is read by raw dict indexing
(KeyError when absent) and each destination becomes a routing action. -/
def coupOnOUTRoute (tbl : List (String × List String)) (srcName : String)
    (p : Option String × Option String) : Except SimErr (List RAct) :=
  if p.1 = none then .ok []
  else
    match lookupTbl tbl srcName with
    | none => .error (.keyError srcName)
    | some dsts => .ok (dsts.map (fun d => if d = "self" then RAct.toParent else RAct.toChild d))

/-- The routing decision of ClassicDevsCoupledSimulator.onIN
(lines 831-840): the timing guard of line 832, then the raw dict lookup of
the external input couplings under key self (KeyError when absent); the
result is the list of child names the payload is forwarded to. -/
def coupOnINRoute (tbl : List (String × List String)) (tl tn t : Time) :
    Except SimErr (List String) :=
  if ¬ (tl ≤ t ∧ t ≤ tn) then .error .inTiming
  else
    match lookupTbl tbl "self" with
    | none => .error (.keyError "self")
    | some eics => .ok eics

/-! ## Generic atomic simulator (ClassicDevsAtomicSimulator, lines 523-558,
over a ClassicDevsAtomicModel, lines 224-405)

The four phase-dispatched callbacks are Except-valued: a missing
phase-suffixed method raises, which the concrete models below reproduce.
deltaExt returns both the Python return value (none models the False
no-change signal) and the content of the state dictionary after the call:
the callback can mutate the shared state dict in place even when it
returns False (Processor.onExternalWhen_busy increments the missed
counter before returning False). -/

/-- The four DEVS primitives of an atomic model, phase-dispatched. -/
structure AtomicModel (P S Pay : Type) where
  deltaInt : P → S → Except SimErr (P × S)
  deltaExt : P → S → Time → Pay → Except SimErr (Option (P × S) × S)
  ta : P → S → Except SimErr Time
  out : P → S → Except SimErr (Option Pay)

/-- The mutable part of an atomic simulator paired with its model's
phase/state (time_last, time_next, phase, state). -/
structure ASim (P S : Type) where
  tl : Time
  tn : Time
  ph : P
  st : S
  deriving DecidableEq

/-- A message an atomic simulator queues to its parent: OutMsg(self, t, p)
or DoneMsg(self, t). -/
inductive PMsg (Pay : Type) : Type
  | out (t : Time) (p : Pay)
  | done (t : Time)
  deriving DecidableEq

/-- ClassicDevsAtomicSimulator.onINIT (lines 528-532): updateTimes(mtime,
mtime + ta()); queue DoneMsg(self, time_next) to the parent. -/
def aOnINIT {P S Pay : Type} (m : AtomicModel P S Pay) (t : Time) (s : ASim P S) :
    Except SimErr (ASim P S × List (PMsg Pay)) := do
  let d ← m.ta s.ph s.st
  let s' : ASim P S := { s with tl := t, tn := t + d }
  .ok (s', [.done s'.tn])

/-- ClassicDevsAtomicSimulator.onSTAR (lines 534-546): timing guard, then
output (queued to the parent when not None), internal transition,
updateTimes(mtime, mtime + ta()), DoneMsg(self, time_next). -/
def aOnSTAR {P S Pay : Type} (m : AtomicModel P S Pay) (t : Time) (s : ASim P S) :
    Except SimErr (ASim P S × List (PMsg Pay)) := do
  if t ≠ s.tn then .error .starTiming
  else do
    let o ← m.out s.ph s.st
    let outMsgs : List (PMsg Pay) := match o with
      | none => []
      | some p => [.out t p]
    let r ← m.deltaInt s.ph s.st
    let d ← m.ta r.1 r.2
    let s' : ASim P S := ⟨t, t + d, r.1, r.2⟩
    .ok (s', outMsgs ++ [.done s'.tn])

/-- ClassicDevsAtomicSimulator.onIN (lines 548-554): timing guard
time_last le mtime le time_next, elapsed = mtime - time_last, external
transition; when it returns a new (phase, state) the times become
(mtime, mtime + ta()), when it returns the no-change signal the times are
left untouched (only the in-place state-dict mutation survives); in both
cases exactly one DoneMsg(self, time_next) goes to the parent. -/
def aOnIN {P S Pay : Type} (m : AtomicModel P S Pay) (t : Time) (x : Pay) (s : ASim P S) :
    Except SimErr (ASim P S × List (PMsg Pay)) := do
  if ¬ (s.tl ≤ t ∧ t ≤ s.tn) then .error .inTiming
  else do
    let r ← m.deltaExt s.ph s.st (tsub t s.tl) x
    match r.1 with
    | some ps => do
        let d ← m.ta ps.1 ps.2
        .ok (⟨t, t + d, ps.1, ps.2⟩, [PMsg.done (t + d)])
    | none => .ok ({ s with st := r.2 }, [PMsg.done s.tn])

/-! ## The concrete procgen system (src/procgen.py, src/generator.py,
src/processor.py) under the engine

The model tree of this repository is the root coordinator, one coupled
model (CoupledGenerator, path /coupled), and its two atomic submodels gen
(a Generator with period 3, path /coupled/gen) and proc (a Processor with
service time 4, path /coupled/proc). -/

/-- Payload of IN/OUT messages: the (port, msg) pair produced by the
output callbacks; both components can be Python None, and the msg dict
of the examples always has the single key job whose value we carry. -/
abbrev Pay := Option String × Option String

/-- Generator phases (src/generator.py). -/
inductive GPhase : Type
  | ginit
  | gdefault
  deriving DecidableEq

/-- Processor phases (src/processor.py). -/
inductive PPhase : Type
  | pinit
  | pidle
  | pbusy
  deriving DecidableEq

/-- Processor state dict: the job key (absent until first accepted input)
and the missed counter (absent models 0 via state.get with default 0). -/
structure ProcSt : Type where
  job : Option String
  missed : ℕ
  deriving DecidableEq

/-- Generator (src/generator.py): period 3 in procgen; emits
(job, dict with its path) at the end of each default phase; defines no
onExternalWhen callback for any phase. -/
def generatorModel (path : String) (period : Time) : AtomicModel GPhase Unit Pay where
  deltaInt := fun p s =>
    match p with
    | .ginit => .ok (.gdefault, s)
    | .gdefault => .ok (.gdefault, s)
  deltaExt := fun p _ _ _ =>
    match p with
    | .ginit => .error (.missingMethod "onExternalWhen_init")
    | .gdefault => .error (.missingMethod "onExternalWhen_default")
  ta := fun p _ =>
    match p with
    | .ginit => .ok ((0 : ℤ) : Time)
    | .gdefault => .ok period
  out := fun p _ =>
    match p with
    | .ginit => .ok none
    | .gdefault => .ok (some (some "job", some path))

/-- Processor (src/processor.py): service time 4 in procgen; accepts a job
when idle (storing input[1] under the job key and switching to busy),
ignores input while busy (missed counter incremented in place, returns
False), emits the stored job when the busy period elapses.  Callbacks not
defined in the source raise missing-method errors. -/
def processorModel (period : Time) : AtomicModel PPhase ProcSt Pay where
  deltaInt := fun p s =>
    match p with
    | .pinit => .ok (.pidle, s)
    | .pbusy => .ok (.pidle, s)
    | .pidle => .error (.missingMethod "onInternalWhen_idle")
  deltaExt := fun p s _ x =>
    match p with
    | .pidle =>
        -- state[job] = input[1][job]; return (busy, state)
        (match x.2 with
         | some j => .ok (some (.pbusy, ⟨some j, s.missed⟩), ⟨some j, s.missed⟩)
         | none => .error (.keyError "job"))
    | .pbusy => .ok (none, ⟨s.job, s.missed + 1⟩)
    | .pinit => .error (.missingMethod "onExternalWhen_init")
  ta := fun p _ =>
    match p with
    | .pinit => .ok ((0 : ℤ) : Time)
    | .pidle => .ok ⊤
    | .pbusy => .ok period
  out := fun p s =>
    match p with
    | .pinit => .ok none
    | .pbusy =>
        (match s.job with
         | some j => .ok (some (some "job", some j))
         | none => .error (.keyError "job"))
    | .pidle => .error (.missingMethod "onOutWhen_idle")

/-- The generator instance of procgen, path assigned by the build pass. -/
def genM : AtomicModel GPhase Unit Pay := generatorModel "/coupled/gen" ((3 : ℤ) : Time)

/-- The processor instance of procgen. -/
def procM : AtomicModel PPhase ProcSt Pay := processorModel ((4 : ℤ) : Time)

/-- The two children of the coupled simulator, in submodel dict insertion
order (gen first, then proc, per CoupledGenerator.subModelsSpecs). -/
inductive CChild : Type
  | gen
  | proc
  deriving DecidableEq

/-- Model name of a child, as used for routing and select. -/
def childName : CChild → String
  | .gen => "gen"
  | .proc => "proc"

/-- The routing table of CoupledGenerator, computed by the embedded
coupling resolver from couplingsSpecs of src/procgen.py. -/
def procgenCouplings : List (String × List String) :=
  match createCouplings ["gen", "proc"] [("gen", ["proc"]), ("proc", ["self"])] with
  | .ok t => t
  | .error _ => []

/-- CoupledGenerator.selectSpecs: the single pair giving priority to the
processor. -/
def procgenSelectSpecs : List (List String × String) := [(["proc", "gen"], "proc")]

/-- re.fullmatch for the patterns occurring in procgenSelectSpecs: proc and
gen contain no regex metacharacters, so a full match is string equality. -/
def litFullmatch (pat s : String) : Bool := pat == s

/-- Mailbox of an atomic child.  A simulator owns one queue per message
kind (lines 428-429, 456-466); for an atomic simulator in this tree only
the INIT, STAR and IN queues are ever filled (OUT or DONE messages to an
atomic simulator would hit raising handlers, and none are ever sent).
Senders are dropped: the atomic handlers ignore the from argument. -/
structure AMB : Type where
  qINIT : List Time := []
  qSTAR : List Time := []
  qIN : List (Time × Pay) := []
  deriving DecidableEq

/-- Mailbox of the coupled simulator: INIT and STAR arrive from the root
(sender dropped), OUT and DONE arrive from the children (the sender child
is the routing/bookkeeping key), IN would arrive from the root but never
does in this tree. -/
structure CMB : Type where
  qINIT : List Time := []
  qSTAR : List Time := []
  qOUT : List (CChild × Time × Pay) := []
  qIN : List (Time × Pay) := []
  qDONE : List (CChild × Time) := []
  deriving DecidableEq

/-- Mailbox of the root coordinator: only OUT and DONE are ever queued to
it (always by the coupled simulator); the INIT, STAR and IN queues of the
root stay empty forever (their inherited handlers would raise). -/
structure RMB : Type where
  qOUT : List (Time × Pay) := []
  qDONE : List Time := []
  deriving DecidableEq

/-- The whole simulation state: both atomic simulators with their
mailboxes, the coupled simulator (times, active children, mailbox), the
root coordinator (times, mailbox) and the outputs the root has printed. -/
structure CWorld : Type where
  gen : ASim GPhase Unit
  proc : ASim PPhase ProcSt
  genMB : AMB
  procMB : AMB
  cMB : CMB
  cTl : Time
  cTn : Time
  cActive : List CChild
  rMB : RMB
  rTl : Time
  rTn : Time
  outputs : List (Time × Pay)
  deriving DecidableEq

/-- Process an atomic child's pending messages in kind-priority order
(INIT, STAR, IN; lines 468-484 restricted to the kinds that can occur),
oldest first, collecting the messages it queues to its parent in emission
order.  The caller resets the child's mailbox: an atomic handler never
queues to its own mailbox, so the drained queues end empty exactly as in
the source. -/
def atomicActivate {P S : Type} (m : AtomicModel P S Pay) (mb : AMB) (s : ASim P S) :
    Except SimErr (ASim P S × List (PMsg Pay)) := do
  let r1 ← mb.qINIT.foldlM (fun (a : ASim P S × List (PMsg Pay)) t => do
      let (s', ms) ← aOnINIT m t a.1
      .ok (s', a.2 ++ ms)) (s, [])
  let r2 ← mb.qSTAR.foldlM (fun (a : ASim P S × List (PMsg Pay)) t => do
      let (s', ms) ← aOnSTAR m t a.1
      .ok (s', a.2 ++ ms)) r1
  mb.qIN.foldlM (fun (a : ASim P S × List (PMsg Pay)) tp => do
      let (s', ms) ← aOnIN m tp.1 tp.2 a.1
      .ok (s', a.2 ++ ms)) r2

/-- Append the messages a child emitted to the coupled simulator's queues
(queue_msg dispatches on message type, lines 456-466). -/
def pushChildMsgs (w : CWorld) (c : CChild) (ms : List (PMsg Pay)) : CWorld :=
  ms.foldl (fun w m =>
    match m with
    | .out t p => { w with cMB := { w.cMB with qOUT := w.cMB.qOUT ++ [(c, t, p)] } }
    | .done t => { w with cMB := { w.cMB with qDONE := w.cMB.qDONE ++ [(c, t)] } }) w

/-- sim.activate() for the gen child: drain its mailbox and deliver its
emissions to the coupled simulator's queues. -/
def activateGen (w : CWorld) : Except SimErr CWorld := do
  let r ← atomicActivate genM w.genMB w.gen
  .ok (pushChildMsgs { w with gen := r.1, genMB := {} } CChild.gen r.2)

/-- sim.activate() for the proc child. -/
def activateProc (w : CWorld) : Except SimErr CWorld := do
  let r ← atomicActivate procM w.procMB w.proc
  .ok (pushChildMsgs { w with proc := r.1, procMB := {} } CChild.proc r.2)

/-- queue_msg(InitMsg) + active_children.append + activate for one child
(the per-child body of the coupled onINIT loop). -/
def initChild (w : CWorld) (c : CChild) (t : Time) : Except SimErr CWorld :=
  match c with
  | .gen =>
      activateGen { w with genMB := { w.genMB with qINIT := w.genMB.qINIT ++ [t] },
                           cActive := w.cActive ++ [CChild.gen] }
  | .proc =>
      activateProc { w with procMB := { w.procMB with qINIT := w.procMB.qINIT ++ [t] },
                            cActive := w.cActive ++ [CChild.proc] }

/-- ClassicDevsCoupledSimulator.onINIT (lines 804-808): broadcast
InitMsg(self, mtime) to every child in dict order, activating each
synchronously. -/
def coupOnINIT (t : Time) (w : CWorld) : Except SimErr CWorld := do
  let w ← initChild w CChild.gen t
  initChild w CChild.proc t

/-- ClassicDevsCoupledSimulator.findImminents (lines 792-797): empty
unless mtime equals time_next, else the children (in dict order) whose
time_next equals mtime. -/
def findImminents (w : CWorld) (t : Time) : List CChild :=
  if t ≠ w.cTn then []
  else
    (if w.gen.tn = t then [CChild.gen] else []) ++
    (if w.proc.tn = t then [CChild.proc] else [])

/-- Deliver StarMsg(self, mtime) to a child, record it active, activate it
(lines 827-829). -/
def starChild (w : CWorld) (c : CChild) (t : Time) : Except SimErr CWorld :=
  match c with
  | .gen =>
      activateGen { w with genMB := { w.genMB with qSTAR := w.genMB.qSTAR ++ [t] },
                           cActive := w.cActive ++ [CChild.gen] }
  | .proc =>
      activateProc { w with procMB := { w.procMB with qSTAR := w.procMB.qSTAR ++ [t] },
                            cActive := w.cActive ++ [CChild.proc] }

/-- Deliver InMsg(from, mtime, param) to a child, record it active,
activate it (lines 850-853 and 836-840; the atomic onIN ignores the
sender, which is therefore not stored). -/
def inChild (w : CWorld) (c : CChild) (t : Time) (p : Pay) : Except SimErr CWorld :=
  match c with
  | .gen =>
      activateGen { w with genMB := { w.genMB with qIN := w.genMB.qIN ++ [(t, p)] },
                           cActive := w.cActive ++ [CChild.gen] }
  | .proc =>
      activateProc { w with procMB := { w.procMB with qIN := w.procMB.qIN ++ [(t, p)] },
                            cActive := w.cActive ++ [CChild.proc] }

/-- ClassicDevsCoupledSimulator.onSTAR (lines 810-829): timing guard,
imminent computation, winner selection (direct when unique, else via the
select engine and the winner checks, then the children dict lookup),
StarMsg to the winner, synchronous activation. -/
def coupOnSTAR (t : Time) (w : CWorld) : Except SimErr CWorld := do
  if t ≠ w.cTn then .error .starTiming
  else do
    let imminents := findImminents w t
    let winner ← (match imminents with
      | [c] => Except.ok c
      | _ => do
          let thisSet := imminents.map childName
          let wn ← checkWinner (cdSelect litFullmatch procgenSelectSpecs thisSet) thisSet
          (match wn with
           | "gen" => Except.ok CChild.gen
           | "proc" => Except.ok CChild.proc
           | k => Except.error (.keyError k)))
    starChild w winner t

/-- ClassicDevsCoupledSimulator.onOUT (lines 842-853): the routing
decision of coupOnOUTRoute followed, in order, by the queue/activate
side effects: destination self queues OutMsg(self, mtime, param) on the
root, any other destination delivers InMsg to the named child. -/
def coupOnOUT (c : CChild) (t : Time) (p : Pay) (w : CWorld) : Except SimErr CWorld := do
  let acts ← coupOnOUTRoute procgenCouplings (childName c) p
  acts.foldlM (fun w a =>
    match a with
    | RAct.toParent => .ok { w with rMB := { w.rMB with qOUT := w.rMB.qOUT ++ [(t, p)] } }
    | RAct.toChild "gen" => inChild w CChild.gen t p
    | RAct.toChild "proc" => inChild w CChild.proc t p
    | RAct.toChild other => .error (.keyError other)) w

/-- ClassicDevsCoupledSimulator.onIN (lines 831-840): never exercised in
this tree (the root sends no IN), included for completeness. -/
def coupOnIN (t : Time) (p : Pay) (w : CWorld) : Except SimErr CWorld := do
  let eics ← coupOnINRoute procgenCouplings w.cTl w.cTn t
  eics.foldlM (fun w d =>
    match d with
    | "gen" => inChild w CChild.gen t p
    | "proc" => inChild w CChild.proc t p
    | other => .error (.keyError other)) w

/-- ClassicDevsCoupledSimulator.onDONE (lines 855-870): drop the sender
from active_children (first occurrence, as list.remove does); when the
list empties, recompute time_last as the running max of the children's
time_last and time_next as the running min of their time_next starting
from the first child in dict order (lines 859-867), then queue
DoneMsg(self, time_next) on the root. -/
def coupOnDONE (c : CChild) (_t : Time) (w : CWorld) : Except SimErr CWorld :=
  let active := w.cActive.erase c
  let w := { w with cActive := active }
  if active.isEmpty then
    let last := w.gen.tl
    let next := w.gen.tn
    let last := max last w.proc.tl
    let next := min next w.proc.tn
    let w := { w with cTl := last, cTn := next }
    .ok { w with rMB := { w.rMB with qDONE := w.rMB.qDONE ++ [w.cTn] } }
  else .ok w

/-- ClassicDevsCoupledSimulator.activate (lines 468-484 inherited, 799):
drain each kind's queue in priority order INIT, STAR, OUT, IN, DONE; each
queue is snapshotted and emptied before its copied contents are iterated,
so messages the handlers queue back onto this simulator land in the live
queues and are only seen by a later kind of this activation or by the
next activation. -/
def coupledActivate (w : CWorld) : Except SimErr CWorld := do
  let b0 := w.cMB.qINIT
  let w := { w with cMB := { w.cMB with qINIT := [] } }
  let w ← b0.foldlM (fun w t => coupOnINIT t w) w
  let b1 := w.cMB.qSTAR
  let w := { w with cMB := { w.cMB with qSTAR := [] } }
  let w ← b1.foldlM (fun w t => coupOnSTAR t w) w
  let b2 := w.cMB.qOUT
  let w := { w with cMB := { w.cMB with qOUT := [] } }
  let w ← b2.foldlM (fun w m => coupOnOUT m.1 m.2.1 m.2.2 w) w
  let b3 := w.cMB.qIN
  let w := { w with cMB := { w.cMB with qIN := [] } }
  let w ← b3.foldlM (fun w m => coupOnIN m.1 m.2 w) w
  let b4 := w.cMB.qDONE
  let w := { w with cMB := { w.cMB with qDONE := [] } }
  b4.foldlM (fun w m => coupOnDONE m.1 m.2 w) w

/-- ClassicDevsRootCoordinator.onDONE (lines 926-929): updateTimes(
time_next, mtime), queue StarMsg(self, mtime) on the root simulator and
activate it immediately. -/
def rootOnDONE (t : Time) (w : CWorld) : Except SimErr CWorld :=
  coupledActivate { w with rTl := w.rTn, rTn := t,
                           cMB := { w.cMB with qSTAR := w.cMB.qSTAR ++ [t] } }

/-- ClassicDevsRootCoordinator.onOUT (lines 933-934): print the escaping
output (recorded here together with the message time). -/
def rootOnOUT (t : Time) (p : Pay) (w : CWorld) : CWorld :=
  { w with outputs := w.outputs ++ [(t, p)] }

/-- The root coordinator's activate: drain OUT then DONE (the only kinds
ever queued to it), each queue snapshotted and emptied before iteration;
a DONE handler re-activates the coupled simulator, whose fresh OUT/DONE
messages land in the emptied root queues and wait for the next root
activation. -/
def rootActivate (w : CWorld) : Except SimErr CWorld := do
  let b2 := w.rMB.qOUT
  let w := { w with rMB := { w.rMB with qOUT := [] } }
  let w := b2.foldl (fun w m => rootOnOUT m.1 m.2 w) w
  let b4 := w.rMB.qDONE
  let w := { w with rMB := { w.rMB with qDONE := [] } }
  b4.foldlM (fun w t => rootOnDONE t w) w

/-- The while loop of ClassicDevsRootCoordinator.start (lines 919-922):
while not time_last ge endtime, activate the root simulator then activate
self.  Fuel bounds the number of iterations; ok none reports exhaustion
hence proves nothing about the loop's outcome. -/
def rootLoop : ℕ → Time → CWorld → Except SimErr (Option CWorld)
  | 0, e, w => if e ≤ w.rTl then .ok (some w) else .ok none
  | f + 1, e, w =>
      if e ≤ w.rTl then .ok (some w)
      else do
        let w ← coupledActivate w
        let w ← rootActivate w
        rootLoop f e w

/-- ClassicDevsRootCoordinator.start (lines 912-922): queue InitMsg(self,
0) on the root simulator, activate it, then run the loop. -/
def rootStart (fuel : ℕ) (e : Time) (w : CWorld) : Except SimErr (Option CWorld) := do
  let w := { w with cMB := { w.cMB with qINIT := w.cMB.qINIT ++ [((0 : ℤ) : Time)] } }
  let w ← coupledActivate w
  rootLoop fuel e w

/-- The state right after construction: the root coordinator's
updateTimes(-1, 0) of line 889 has run; all other time fields are still
Python None, first read only after their first write in every execution,
so the placeholder 0 is observationally equivalent; phases are init and
the state dicts empty; every queue is empty. -/
def initCWorld : CWorld where
  gen := ⟨((0 : ℤ) : Time), ((0 : ℤ) : Time), .ginit, ()⟩
  proc := ⟨((0 : ℤ) : Time), ((0 : ℤ) : Time), .pinit, ⟨none, 0⟩⟩
  genMB := {}
  procMB := {}
  cMB := {}
  cTl := ((0 : ℤ) : Time)
  cTn := ((0 : ℤ) : Time)
  cActive := []
  rMB := {}
  rTl := ((-1 : ℤ) : Time)
  rTn := ((0 : ℤ) : Time)
  outputs := []

/-- The end-to-end procgen run of the spec's paragraph 8 scenario:
end_time = 10, fuel 20 (ample: the loop exits by its condition). -/
def c1FinalW : Option CWorld :=
  match rootStart 20 ((10 : ℤ) : Time) initCWorld with
  | .ok (some w) => some w
  | _ => none

/-! ## Generic per-kind mailbox and the activation algorithm
(ClassicDevsAbstractSimulator, lines 428-429, 456-466, 468-484)

This is the message layer in full generality: one queue per message kind
(kind = MsgType value: INIT 0, STAR 1, OUT 2, IN 3, DONE 4), an arbitrary
message type M, an arbitrary rest-of-world state sigma that the handlers
may also touch, and an arbitrary handler family.  The only assumption the
theorems need is that a handler can only APPEND to this simulator's own
queues (in the source nothing ever removes messages except activate
itself; re-entrant traffic reaches the mailbox through queue_msg, which
appends). -/

/-- A simulator's mailbox: one sub-queue per message kind
(lines 428-429). -/
structure Mailbox (M : Type) : Type where
  q0 : List M
  q1 : List M
  q2 : List M
  q3 : List M
  q4 : List M

/-- Queue of a given kind (msg_queue[msg_type]); kinds at least 5 do not
occur (MSG_COUNT = 5) and read as empty. -/
def Mailbox.q {M : Type} (mb : Mailbox M) : ℕ → List M
  | 0 => mb.q0
  | 1 => mb.q1
  | 2 => mb.q2
  | 3 => mb.q3
  | 4 => mb.q4
  | _ + 5 => []

/-- Replace the queue of a given kind (msg_queue[msg_type] = ...). -/
def Mailbox.setQ {M : Type} (mb : Mailbox M) : ℕ → List M → Mailbox M
  | 0, l => { mb with q0 := l }
  | 1, l => { mb with q1 := l }
  | 2, l => { mb with q2 := l }
  | 3, l => { mb with q3 := l }
  | 4, l => { mb with q4 := l }
  | _ + 5, _ => mb

/-- A simulator's full state: its own mailbox plus everything else the
handlers may read or write (its timing fields, the other simulators...). -/
abbrev WState (M σ : Type) := Mailbox M × σ

/-- Empty the queue of one kind (line 478). -/
def clearK {M σ : Type} (k : ℕ) (w : WState M σ) : WState M σ := (w.1.setQ k [], w.2)

/-- One iteration of the activation loop (lines 475-484) for kind k:
snapshot the queue, skip if empty, otherwise empty it and only then
iterate the snapshot oldest-first, dispatching each message to the
handler of that kind. -/
def drainKind {M σ : Type} (h : ℕ → M → WState M σ → WState M σ) (k : ℕ)
    (w : WState M σ) : WState M σ :=
  let msgs := w.1.q k
  if msgs.isEmpty then w
  else msgs.foldl (fun a m => h k m a) (clearK k w)

/-- ClassicDevsAbstractSimulator.activate (lines 468-484): drain the five
kinds in priority order INIT, STAR, OUT, IN, DONE. -/
def activate {M σ : Type} (h : ℕ → M → WState M σ → WState M σ) (w : WState M σ) :
    WState M σ :=
  drainKind h 4 (drainKind h 3 (drainKind h 2 (drainKind h 1 (drainKind h 0 w))))

/-- drainKind instrumented with the list of (kind, message) pairs it
dispatches, in dispatch order. -/
def drainKindTr {M σ : Type} (h : ℕ → M → WState M σ → WState M σ) (k : ℕ)
    (w : WState M σ) : WState M σ × List (ℕ × M) :=
  let msgs := w.1.q k
  if msgs.isEmpty then (w, [])
  else (msgs.foldl (fun a m => h k m a) (clearK k w), msgs.map (fun m => (k, m)))

/-- activate instrumented with the full dispatch log of the call. -/
def activateTr {M σ : Type} (h : ℕ → M → WState M σ → WState M σ) (w : WState M σ) :
    WState M σ × List (ℕ × M) :=
  let r0 := drainKindTr h 0 w
  let r1 := drainKindTr h 1 r0.1
  let r2 := drainKindTr h 2 r1.1
  let r3 := drainKindTr h 3 r2.1
  let r4 := drainKindTr h 4 r3.1
  (r4.1, r0.2 ++ r1.2 ++ r2.2 ++ r3.2 ++ r4.2)

/-- The state of the activation just before the drain of kind k starts. -/
def stageBefore {M σ : Type} (h : ℕ → M → WState M σ → WState M σ) (w : WState M σ) :
    ℕ → WState M σ
  | 0 => w
  | 1 => drainKind h 0 w
  | 2 => drainKind h 1 (drainKind h 0 w)
  | 3 => drainKind h 2 (drainKind h 1 (drainKind h 0 w))
  | 4 => drainKind h 3 (drainKind h 2 (drainKind h 1 (drainKind h 0 w)))
  | _ + 5 => w

/-- A handler family that can only append to this simulator's own queues,
as every handler of the source does (messages reach a mailbox only through
queue_msg, line 465, which appends). -/
def AppendOnly {M σ : Type} (h : ℕ → M → WState M σ → WState M σ) : Prop :=
  ∀ (k : ℕ) (m : M) (w : WState M σ) (j : ℕ), ∃ t, (h k m w).1.q j = w.1.q j ++ t

/-- Tag every message of a batch with its kind, giving the log fragment a
single drain contributes. -/
def tagK {M : Type} (k : ℕ) (l : List M) : List (ℕ × M) := l.map (fun m => (k, m))

/-! ## Timing system for the invariant time_last le time_next

A macro-step transition system over the simulator tree of this repository
(root coordinator, one coupled simulator, its n atomic children), whose
steps bundle the synchronous message cascade of one round exactly as the
handlers perform it: the root consumes the pending DONE(t), sets its
clocks (line 927), sends STAR(t) down; the coupled onSTAR guard (line
811) and the winner plus the receivers of the routed output update their
clocks to (t, t + ta) at line 530/544/553 (ta arbitrary but nonnegative,
the claim's hypothesis; a rejecting receiver changes nothing and is
simply not listed); finally the coupled onDONE aggregation (lines
858-867) recomputes the coupled clocks and queues DONE(time_next), which
the next step consumes. -/

/-- The clocks of one atomic child simulator. -/
structure ChildT : Type where
  tl : Time
  tn : Time
  deriving DecidableEq

/-- Apply one round's child updates in sequence: each update (i, d) is a
child index whose handler completed at time t with time advance d,
setting its clocks to (t, t + d). -/
def applyRound (t : Time) (upds : List (ℕ × Time)) (cs : List ChildT) : List ChildT :=
  upds.foldl (fun cs u => cs.set u.1 ⟨t, t + u.2⟩) cs

/-- The time_last aggregation of coupled onDONE (lines 859-867): start
from children[0] and fold max over the rest.  The empty case cannot occur
(children[0] of an empty tuple would raise IndexError). -/
def aggLast : List ChildT → Time
  | [] => (0 : Time)
  | c :: rest => rest.foldl (fun a x => max a x.tl) c.tl

/-- The time_next aggregation of coupled onDONE: fold min likewise. -/
def aggNext : List ChildT → Time
  | [] => (0 : Time)
  | c :: rest => rest.foldl (fun a x => min a x.tn) c.tn

/-- The clock state of the whole tree: the children's clocks, the coupled
simulator's clocks, the root coordinator's clocks. -/
structure SysSt : Type where
  children : List ChildT
  cpTl : Time
  cpTn : Time
  rtTl : Time
  rtTn : Time

/-- Reachable clock states of the tree, under the claim's assumption that
every time-advance callback returns a nonnegative value or +infinity.
The base state is the end of the INIT broadcast at time 0 (lines 804-808,
528-532, 855-870), with the root still at its constructed clocks
(-1, 0) of line 889.  A round step consumes the pending DONE (whose time
is the coupled time_next), runs the root DONE handler (line 927) and one
STAR round at that time, and ends with the aggregation. -/
inductive Reach : SysSt → Prop
  | init (ds : List Time) (hne : ds ≠ []) (hd : ∀ d ∈ ds, (0 : Time) ≤ d) :
      Reach { children := ds.map (fun d => ⟨(0 : Time), (0 : Time) + d⟩),
              cpTl := aggLast (ds.map (fun d => ⟨(0 : Time), (0 : Time) + d⟩)),
              cpTn := aggNext (ds.map (fun d => ⟨(0 : Time), (0 : Time) + d⟩)),
              rtTl := ((-1 : ℤ) : Time),
              rtTn := (0 : Time) }
  | round (s : SysSt) (hs : Reach s) (t : Time) (upds : List (ℕ × Time))
      (ht : t = s.cpTn)
      (hd : ∀ u ∈ upds, (0 : Time) ≤ u.2) :
      Reach { children := applyRound t upds s.children,
              cpTl := aggLast (applyRound t upds s.children),
              cpTn := aggNext (applyRound t upds s.children),
              rtTl := s.rtTn,
              rtTn := t }

/-- The inductive invariant: a nonempty child list, cross-coherent child
clocks, the coupled clocks equal to the aggregates, and ordered root
clocks below the coupled time_next. -/
def SysInv (s : SysSt) : Prop :=
  s.children ≠ [] ∧
  (∀ c ∈ s.children, ∀ c' ∈ s.children, c.tl ≤ c'.tn) ∧
  s.cpTl = aggLast s.children ∧
  s.cpTn = aggNext s.children ∧
  s.rtTl ≤ s.rtTn ∧
  s.rtTn ≤ s.cpTn

/-! ## Witness-side auxiliary definitions -/

/-- Theorem-side bridge for claim C7: the decimal digit characters as
strings. -/
def digitStr : Fin 10 → String
  | 0 => "0"
  | 1 => "1"
  | 2 => "2"
  | 3 => "3"
  | 4 => "4"
  | 5 => "5"
  | 6 => "6"
  | 7 => "7"
  | 8 => "8"
  | 9 => "9"

/-- Witness-side handler for the activation theorems: every message of
any kind makes the handler queue one DONE-kind message back onto the SAME
simulator (the re-entrant pattern of the source: during the root's DONE
drain, the DONE handler re-activates the subtree, which queues fresh DONE
messages on the root). -/
def echoHandler : ℕ → ℕ → WState ℕ Unit → WState ℕ Unit :=
  fun _ m w => ({ w.1 with q4 := w.1.q4 ++ [m + 1] }, w.2)

/-- Witness-side start state: one pending DONE-kind message. -/
def echoWorld : WState ℕ Unit := (⟨[], [], [], [], [7]⟩, ())

/-! ## Theorems -/

/-- Sanity: the embedded coupling resolver reproduces the routing table of
CoupledGenerator. -/
theorem procgenCouplings_eq :
    procgenCouplings = [("gen", ["proc"]), ("proc", ["self"])] := rfl

/-- Claim C5 counterexample: on an imminent set matched by no select spec,
select returns the False sentinel, which fails the membership check of
line 822 first, so the error actually raised is the TypeError of line 823,
whose message does not mention the offending name set; the raise that does
interpolate the set (line 825) is not reached.  This falsifies the claim
that the abort identifies the offending name set. -/
theorem c5_counterexample :
    checkWinner (cdSelect litFullmatch procgenSelectSpecs ["a", "b"]) ["a", "b"]
        = .error .selectNotInSet
      ∧ SimErr.selectNotInSet ≠ SimErr.selectNoWinner ["a", "b"] :=
  ⟨rfl, by decide⟩

/-- Claim C5 (amended): whenever select finds no winner (returns the False
sentinel) or returns a winner outside the candidate set, onSTAR aborts,
in both cases with the winner-not-in-candidates error that does not carry
the name set. -/
theorem c5_theorem (fm : String → String → Bool) (specs : List (List String × String))
    (ns : List String)
    (h : cdSelect fm specs ns = none ∨
         ∃ w, cdSelect fm specs ns = some w ∧ ns.contains w = false) :
    checkWinner (cdSelect fm specs ns) ns = .error .selectNotInSet := by
  rcases h with h | ⟨w, hw, hmem⟩
  · rw [h]
    simp [checkWinner, pyMem]
  · rw [hw]
    have hm : pyMem (some w) ns = false := hmem
    simp [checkWinner, hm]

/-- Witness for c5_theorem at the procgen select specs and the imminent
set of the counterexample situation. -/
theorem c5_witness :
    (cdSelect litFullmatch procgenSelectSpecs ["a", "b"] = none ∨
       ∃ w, cdSelect litFullmatch procgenSelectSpecs ["a", "b"] = some w ∧
         (["a", "b"] : List String).contains w = false)
    ∧ checkWinner (cdSelect litFullmatch procgenSelectSpecs ["a", "b"]) ["a", "b"]
        = .error .selectNotInSet :=
  ⟨Or.inl rfl, c5_theorem litFullmatch procgenSelectSpecs ["a", "b"] (Or.inl rfl)⟩

/-- Claim C10: the coupled simulator's IN and OUT routing lookups are raw
dict indexing: a missing self entry (for IN, when the timing guard
passes) or a missing emitter entry (for OUT, when the payload port is
present) surfaces as the KeyError model value carrying the key, not as
any guarded branch or taxonomy diagnostic. -/
theorem c10_theorem :
    (∀ (tbl : List (String × List String)) (tl tn t : Time), tl ≤ t → t ≤ tn →
        lookupTbl tbl "self" = none →
        coupOnINRoute tbl tl tn t = .error (.keyError "self"))
    ∧ (∀ (tbl : List (String × List String)) (src : String) (p : Option String × Option String),
        p.1 ≠ none → lookupTbl tbl src = none →
        coupOnOUTRoute tbl src p = .error (.keyError src)) := by
  constructor
  · intro tbl tl tn t h1 h2 hl
    simp [coupOnINRoute, h1, h2, hl]
  · intro tbl src p hp hl
    simp [coupOnOUTRoute, hp, hl]

/-- Witness for c10_theorem: the empty couplings table. -/
theorem c10_witness :
    coupOnINRoute [] (0 : Time) (0 : Time) (0 : Time) = .error (.keyError "self")
    ∧ coupOnOUTRoute [] "gen" (some "job", none) = .error (.keyError "gen") :=
  ⟨c10_theorem.1 [] 0 0 0 le_rfl le_rfl rfl,
   c10_theorem.2 [] "gen" (some "job", none) (by decide) rfl⟩

/-- Claim C9 counterexample: a payload whose message body (second
component) is ABSENT but whose port (first component) is present is not
discarded: onOUT tests param[0], the port, so the message is routed.
This falsifies the claim that absence of the message body triggers the
silent discard. -/
theorem c9_counterexample :
    coupOnOUTRoute [("m", ["self"])] "m" (some "p", none) = .ok [RAct.toParent]
      ∧ ([RAct.toParent] : List RAct) ≠ [] :=
  ⟨rfl, by decide⟩

/-- Claim C9 (amended): the silent-discard test is on the FIRST component
of the (port, body) pair: a payload with port None is discarded outright
(no routing action, regardless of the body), and a payload with a present
port is routed to every destination of the table entry for the emitting
model name, destination self becoming a forward to the parent. -/
theorem c9_theorem :
    (∀ (tbl : List (String × List String)) (src : String) (b : Option String),
        coupOnOUTRoute tbl src (none, b) = .ok [])
    ∧ (∀ (tbl : List (String × List String)) (src : String) (a : String)
        (b : Option String) (dsts : List String),
        lookupTbl tbl src = some dsts →
        coupOnOUTRoute tbl src (some a, b)
          = .ok (dsts.map (fun d => if d = "self" then RAct.toParent else RAct.toChild d))) := by
  constructor
  · intro tbl src b
    simp [coupOnOUTRoute]
  · intro tbl src a b dsts hl
    simp [coupOnOUTRoute, hl]

/-- Witness for c9_theorem at the procgen routing table. -/
theorem c9_witness :
    coupOnOUTRoute procgenCouplings "proc" (none, some "x") = .ok []
    ∧ coupOnOUTRoute procgenCouplings "proc" (some "job", some "x") = .ok [RAct.toParent] :=
  ⟨c9_theorem.1 procgenCouplings "proc" (some "x"),
   by
    have h := c9_theorem.2 procgenCouplings "proc" "job" (some "x") ["self"] rfl
    simpa using h⟩

/-- Claim C8: an atomic simulator handling IN at a time within
[time_last, time_next]: when the external transition returns the
no-change signal the clocks (and the phase) are left exactly as they
were, only the in-place state mutation of the callback survives; in both
the rejected and the accepted case exactly one DONE carrying the current
time_next goes to the parent. -/
theorem c8_theorem {P S Pa : Type} (m : AtomicModel P S Pa) (s : ASim P S) (t : Time)
    (x : Pa) (h1 : s.tl ≤ t) (h2 : t ≤ s.tn) :
    (∀ side, m.deltaExt s.ph s.st (tsub t s.tl) x = .ok (none, side) →
        aOnIN m t x s = .ok ({ s with st := side }, [PMsg.done s.tn]))
    ∧ (∀ ph' st' side d, m.deltaExt s.ph s.st (tsub t s.tl) x = .ok (some (ph', st'), side) →
        m.ta ph' st' = .ok d →
        aOnIN m t x s = .ok (⟨t, t + d, ph', st'⟩, [PMsg.done (t + d)])) := by
  constructor
  · intro side hde
    simp [aOnIN, h1, h2, hde, bind, Except.bind]
  · intro ph' st' side d hde hta
    simp [aOnIN, h1, h2, hde, hta, bind, Except.bind]

/-- Witness for c8_theorem: the busy processor of the end-to-end scenario
rejecting the job offered at t = 6 (clocks (3, 7) untouched, one
DONE(7)). -/
theorem c8_witness :
    aOnIN procM ((6 : ℤ) : Time) (some "job", some "/coupled/gen")
        ⟨((3 : ℤ) : Time), ((7 : ℤ) : Time), .pbusy, ⟨some "/coupled/gen", 0⟩⟩
      = .ok (⟨((3 : ℤ) : Time), ((7 : ℤ) : Time), .pbusy, ⟨some "/coupled/gen", 1⟩⟩,
             [PMsg.done ((7 : ℤ) : Time)]) :=
  (c8_theorem procM ⟨((3 : ℤ) : Time), ((7 : ℤ) : Time), .pbusy, ⟨some "/coupled/gen", 0⟩⟩
      ((6 : ℤ) : Time) (some "job", some "/coupled/gen") (by decide) (by decide)).1
    ⟨some "/coupled/gen", 1⟩ rfl


/-- Claim C1 counterexample: the end-to-end procgen run to end_time 10
terminates (fuel is not exhausted), but the final root time_last is 12,
not the claimed 10. -/
theorem c1_counterexample :
    c1FinalW.map CWorld.rTl = some ((12 : ℤ) : Time)
      ∧ ((12 : ℤ) : Time) ≠ ((10 : ℤ) : Time) :=
  ⟨rfl, by decide⟩

/-- Claim C1 (amended): the run to end_time 10 terminates with final root
time_last = 12; exactly one boundary output is processed by the root, the
processor's completed job at t = 7; the generator jobs offered at t = 6
and t = 12 are rejected while the processor is busy (missed = 2, so the
jobs of t = 3 and t = 9 were accepted); the second completion, at t = 13
(not 11), is queued at the root boundary but never drained. -/
theorem c1_theorem :
    c1FinalW.map (fun w => (w.rTl, w.outputs, w.proc.st.missed, w.rMB.qOUT))
      = some (((12 : ℤ) : Time),
              [(((7 : ℤ) : Time), (some "job", some "/coupled/gen"))],
              2,
              [(((13 : ℤ) : Time), (some "job", some "/coupled/gen"))]) := rfl

/-- Claim C2: the root coordinator initializes (time_last, time_next) =
(-1, 0); start enqueues INIT at time 0 to the root simulator, activates
it, then loops (activate the root simulator, then itself) while
time_last is less than end_time, stopping as soon as time_last reaches
end_time; and the DONE handler sets time_last to the previous time_next,
time_next to the received time, enqueues STAR at that time to the root
simulator and activates it immediately. -/
theorem c2_theorem :
    (initCWorld.rTl = ((-1 : ℤ) : Time) ∧ initCWorld.rTn = ((0 : ℤ) : Time))
    ∧ (∀ (f : ℕ) (e : Time) (w : CWorld),
        rootStart f e w =
          (coupledActivate
              { w with cMB := { w.cMB with qINIT := w.cMB.qINIT ++ [((0 : ℤ) : Time)] } }
            >>= rootLoop f e))
    ∧ (∀ (f : ℕ) (e : Time) (w : CWorld), e ≤ w.rTl → rootLoop f e w = .ok (some w))
    ∧ (∀ (f : ℕ) (e : Time) (w : CWorld), ¬ e ≤ w.rTl →
        rootLoop (f + 1) e w
          = (coupledActivate w >>= fun w1 => rootActivate w1 >>= rootLoop f e))
    ∧ (∀ (t : Time) (w : CWorld),
        rootOnDONE t w =
          coupledActivate { w with rTl := w.rTn, rTn := t,
                                   cMB := { w.cMB with qSTAR := w.cMB.qSTAR ++ [t] } }) := by
  refine ⟨⟨rfl, rfl⟩, fun f e w => rfl, ?_, ?_, fun t w => rfl⟩
  · intro f e w h
    cases f <;> simp [rootLoop, h]
  · intro f e w h
    simp [rootLoop, h]

/-- Witness for c2_theorem: the loop exits immediately when end_time is
already reached, and performs one body otherwise, at the freshly
constructed world. -/
theorem c2_witness :
    rootLoop 0 ((-1 : ℤ) : Time) initCWorld = .ok (some initCWorld)
    ∧ (¬ ((0 : ℤ) : Time) ≤ initCWorld.rTl)
    ∧ rootLoop 1 ((0 : ℤ) : Time) initCWorld
        = (coupledActivate initCWorld >>= fun w1 => rootActivate w1 >>= rootLoop 0 ((0 : ℤ) : Time)) :=
  ⟨c2_theorem.2.2.1 0 ((-1 : ℤ) : Time) initCWorld (by decide),
   by decide,
   c2_theorem.2.2.2.1 0 ((0 : ℤ) : Time) initCWorld (by decide)⟩

/-- Claim C6 counterexample: a coupling whose source spec (ghost) expands
to the empty set over the procgen submodels is neither reported as an
error nor recorded: build succeeds with an empty routing table. -/
theorem c6_counterexample :
    createCouplings ["gen", "proc"] [("ghost", ["proc"])] = .ok []
      ∧ lookupTbl [] "ghost" = none :=
  ⟨rfl, rfl⟩

/-- Claim C6 (amended): a coupling pair whose source spec expands to the
empty name set, or whose destination spec expands to the empty name set,
is silently dropped: resolution succeeds and contributes no routing
entry (only a spec that fails to parse raises). -/
theorem c6_theorem :
    (∀ (subNames : List String) (src d : String) (nm : String) (fs ls : Option String)
        (nm' : String) (fs' ls' : Option String) (ms : List String),
        decodeRangeSpec src = .ok (nm, fs, ls) →
        findMatchingNumberedModels subNames nm fs ls = .ok [] →
        decodeRangeSpec d = .ok (nm', fs', ls') →
        findMatchingNumberedModels subNames nm' fs' ls' = .ok ms →
        createCouplings subNames [(src, [d])] = .ok [])
    ∧ (∀ (subNames : List String) (src d : String) (nm : String) (fs ls : Option String)
        (nm' : String) (fs' ls' : Option String) (ms : List String),
        decodeRangeSpec src = .ok (nm, fs, ls) →
        findMatchingNumberedModels subNames nm fs ls = .ok ms →
        decodeRangeSpec d = .ok (nm', fs', ls') →
        findMatchingNumberedModels subNames nm' fs' ls' = .ok [] →
        createCouplings subNames [(src, [d])] = .ok []) := by
  constructor
  · intro subNames src d nm fs ls nm' fs' ls' ms h1 h2 h3 h4
    simp [createCouplings, List.foldlM, h1, h2, h3, h4, bind, Except.bind]
    rfl
  · intro subNames src d nm fs ls nm' fs' ls' ms h1 h2 h3 h4
    simp [createCouplings, List.foldlM, h1, h2, h3, h4, bind, Except.bind]
    rfl

/-- Witness for c6_theorem: the ghost source over the procgen submodels,
and the ghost destination likewise. -/
theorem c6_witness :
    createCouplings ["gen", "proc"] [("ghost", ["proc"])] = .ok []
    ∧ createCouplings ["gen", "proc"] [("gen", ["ghost"])] = .ok [] :=
  ⟨c6_theorem.1 ["gen", "proc"] "ghost" "proc" "ghost" none none "proc" none none ["proc"]
      rfl rfl rfl rfl,
   c6_theorem.2 ["gen", "proc"] "gen" "ghost" "gen" none none "ghost" none none ["gen"]
      rfl rfl rfl rfl⟩

/-- Claim C7 counterexample: the spec gen[2:10] over the single submodel
gen:5 expands to the empty set although 2 le 5 lt 10 as natural numbers
and gen:5 is instantiated: the bound comparison first le num lt last is
performed on the digit STRINGS (Python string order), and "5" lt "10" is
false. -/
theorem c7_counterexample :
    decodeRangeSpec "gen[2:10]" = .ok ("gen", some "2", some "10")
      ∧ findMatchingNumberedModels ["gen:5"] "gen" (some "2") (some "10") = .ok []
      ∧ ((2 : ℕ) ≤ 5 ∧ (5 : ℕ) < 10) :=
  ⟨rfl, rfl, by decide⟩

/-- Claim C7 (amended): range expansion compares the numeric suffixes as
strings, lexicographically; for single-digit bounds and suffixes this
order coincides with the numeric one, and the paragraph-8 example
resolves exactly as claimed: gen:2 and gen:3 each route to proc:0,
proc:1, proc. -/
theorem c7_theorem :
    (createCouplings ["gen:2", "gen:3", "proc:0", "proc:1", "proc"]
        [("gen[2:4]", ["proc[0:2]", "proc"])]
      = .ok [("gen:2", ["proc:0", "proc:1", "proc"]),
             ("gen:3", ["proc:0", "proc:1", "proc"])])
    ∧ (∀ a b k : Fin 10,
        (strLePy (digitStr a) (digitStr k) && strLtPy (digitStr k) (digitStr b)) = true
          ↔ (a ≤ k ∧ k < b)) :=
  ⟨rfl, by decide⟩


/-- setQ of one kind leaves the queues of the other kinds untouched. -/
theorem setQ_q_ne {M : Type} (mb : Mailbox M) (k j : ℕ) (l : List M) (h : j ≠ k) :
    (mb.setQ k l).q j = mb.q j := by
  rcases k with _ | _ | _ | _ | _ | k <;> rcases j with _ | _ | _ | _ | _ | j <;>
    first
      | rfl
      | exact absurd rfl h

/-- When the snapshot is empty the drain is the identity. -/
theorem drainKind_of_empty {M σ : Type} (h : ℕ → M → WState M σ → WState M σ) (k : ℕ)
    (w : WState M σ) (hq : w.1.q k = []) : drainKind h k w = w := by
  simp [drainKind, hq]

/-- When the snapshot is nonempty the drain empties the queue first and
then folds the handler over the snapshot. -/
theorem drainKind_of_ne {M σ : Type} (h : ℕ → M → WState M σ → WState M σ) (k : ℕ)
    (w : WState M σ) (hq : w.1.q k ≠ []) :
    drainKind h k w = (w.1.q k).foldl (fun a m => h k m a) (clearK k w) := by
  simp [drainKind, List.isEmpty_iff, hq]

/-- Append-only handlers can never remove a message from a queue across a
fold of handler applications. -/
theorem mem_foldl_handlers {M σ : Type} {h : ℕ → M → WState M σ → WState M σ}
    (Ha : AppendOnly h) (k : ℕ) (l : List M) (a : WState M σ) (j : ℕ) (m : M)
    (hm : m ∈ a.1.q j) : m ∈ (l.foldl (fun a x => h k x a) a).1.q j := by
  induction l generalizing a with
  | nil => exact hm
  | cons x xs ih =>
      apply ih
      obtain ⟨t, ht⟩ := Ha k x a j
      rw [ht]
      exact List.mem_append_left _ hm

/-- Draining a kind different from j never consumes a queue-j message. -/
theorem mem_drainKind_ne {M σ : Type} {h : ℕ → M → WState M σ → WState M σ}
    (Ha : AppendOnly h) (k j : ℕ) (hne : j ≠ k) (w : WState M σ) (m : M)
    (hm : m ∈ w.1.q j) : m ∈ (drainKind h k w).1.q j := by
  by_cases hq : w.1.q k = []
  · rw [drainKind_of_empty h k w hq]
    exact hm
  · rw [drainKind_of_ne h k w hq]
    apply mem_foldl_handlers Ha
    show m ∈ ((w.1.setQ k []).q j)
    rw [setQ_q_ne _ _ _ _ hne]
    exact hm

/-- The instrumented drain computes the same state as the drain. -/
theorem drainKindTr_fst {M σ : Type} (h : ℕ → M → WState M σ → WState M σ) (k : ℕ)
    (w : WState M σ) : (drainKindTr h k w).1 = drainKind h k w := by
  by_cases hq : (w.1.q k).isEmpty <;> simp [drainKindTr, drainKind, hq]

/-- The instrumented drain logs exactly the snapshot of its kind, tagged,
in queue order. -/
theorem drainKindTr_snd {M σ : Type} (h : ℕ → M → WState M σ → WState M σ) (k : ℕ)
    (w : WState M σ) : (drainKindTr h k w).2 = tagK k (w.1.q k) := by
  by_cases hq : (w.1.q k).isEmpty
  · rw [List.isEmpty_iff] at hq
    simp [drainKindTr, tagK, hq]
  · simp [drainKindTr, tagK, hq]

/-- Claim C3: one activation drains the per-kind queues in the strict
priority order INIT, STAR, OUT, IN, DONE, oldest-first within a kind,
where the batch of each kind is the snapshot of that queue at the moment
its drain starts (first conjunct: the dispatch log is exactly the five
tagged snapshots in kind order, each taken in the stage reached after the
earlier kinds were drained, the queue being emptied at snapshot time);
and, for append-only handler families (all handlers of the source only
append to a mailbox), a message that sits in the queue of kind j at any
point during the drain of a kind k greater or equal to j, in particular
one enqueued back onto this simulator at such a point, is still in that
queue when activate returns, hence is not processed before the next
activation call (second conjunct). -/
theorem c3_theorem {M σ : Type} (h : ℕ → M → WState M σ → WState M σ) (w : WState M σ)
    (Ha : AppendOnly h) :
    ((activateTr h w).1 = activate h w
      ∧ (activateTr h w).2 =
          tagK 0 ((stageBefore h w 0).1.q 0) ++ tagK 1 ((stageBefore h w 1).1.q 1)
            ++ tagK 2 ((stageBefore h w 2).1.q 2) ++ tagK 3 ((stageBefore h w 3).1.q 3)
            ++ tagK 4 ((stageBefore h w 4).1.q 4))
    ∧ (∀ k j : ℕ, j ≤ k → ∀ (pre suf : List M) (m : M),
        (stageBefore h w k).1.q k = pre ++ suf →
        (stageBefore h w k).1.q k ≠ [] →
        m ∈ (pre.foldl (fun a x => h k x a) (clearK k (stageBefore h w k))).1.q j →
        m ∈ (activate h w).1.q j) := by
  constructor
  · constructor
    · simp [activateTr, activate, drainKindTr_fst]
    · simp [activateTr, stageBefore, drainKindTr_fst, drainKindTr_snd]
  · intro k j hjk pre suf m hsplit hne hmem
    have key : ∀ (u : WState M σ), u = stageBefore h w k →
        m ∈ (drainKind h k u).1.q j := by
      intro u hu
      subst hu
      rw [drainKind_of_ne h k _ hne, hsplit, List.foldl_append]
      exact mem_foldl_handlers Ha k suf _ j m hmem
    rcases k with _ | _ | _ | _ | _ | k
    · show m ∈ (drainKind h 4 (drainKind h 3 (drainKind h 2 (drainKind h 1
          (drainKind h 0 (stageBefore h w 0)))))).1.q j
      apply mem_drainKind_ne Ha 4 j (by omega)
      apply mem_drainKind_ne Ha 3 j (by omega)
      apply mem_drainKind_ne Ha 2 j (by omega)
      apply mem_drainKind_ne Ha 1 j (by omega)
      exact key _ rfl
    · show m ∈ (drainKind h 4 (drainKind h 3 (drainKind h 2 (drainKind h 1
          (stageBefore h w 1))))).1.q j
      apply mem_drainKind_ne Ha 4 j (by omega)
      apply mem_drainKind_ne Ha 3 j (by omega)
      apply mem_drainKind_ne Ha 2 j (by omega)
      exact key _ rfl
    · show m ∈ (drainKind h 4 (drainKind h 3 (drainKind h 2
          (stageBefore h w 2)))).1.q j
      apply mem_drainKind_ne Ha 4 j (by omega)
      apply mem_drainKind_ne Ha 3 j (by omega)
      exact key _ rfl
    · show m ∈ (drainKind h 4 (drainKind h 3 (stageBefore h w 3))).1.q j
      apply mem_drainKind_ne Ha 4 j (by omega)
      exact key _ rfl
    · show m ∈ (drainKind h 4 (stageBefore h w 4)).1.q j
      exact key _ rfl
    · exact absurd rfl hne

/-- Witness for c3_theorem: the echo handler is append-only, and in the
start state with one DONE-kind message 7, the message 8 that the handler
enqueues back onto the DONE queue while that very queue is being drained
is still pending when the activation returns. -/
theorem c3_witness :
    AppendOnly echoHandler
    ∧ (8 : ℕ) ∈ (activate echoHandler echoWorld).1.q 4 := by
  have ha : AppendOnly echoHandler := by
    intro k m w j
    rcases j with _ | _ | _ | _ | _ | j
    · exact ⟨[], (List.append_nil _).symm⟩
    · exact ⟨[], (List.append_nil _).symm⟩
    · exact ⟨[], (List.append_nil _).symm⟩
    · exact ⟨[], (List.append_nil _).symm⟩
    · exact ⟨[m + 1], rfl⟩
    · exact ⟨[], rfl⟩
  refine ⟨ha, ?_⟩
  exact (c3_theorem echoHandler echoWorld ha).2 4 4 (le_refl 4) [7] [] 8 rfl
    (by decide) (by decide)


/-- The seed of a max fold is a lower bound of the result. -/
theorem le_foldl_max (l : List Time) (a : Time) : a ≤ l.foldl max a := by
  induction l generalizing a with
  | nil => exact le_refl a
  | cons x xs ih => exact le_trans (le_max_left a x) (ih (max a x))

/-- Every element of the list is a lower bound of a max fold. -/
theorem mem_le_foldl_max (l : List Time) (a x : Time) (hx : x ∈ l) : x ≤ l.foldl max a := by
  induction l generalizing a with
  | nil => cases hx
  | cons y ys ih =>
      rcases List.mem_cons.mp hx with h | h
      · subst h
        exact le_trans (le_max_right a x) (le_foldl_max ys (max a x))
      · exact ih _ h

/-- A bound of the seed and all elements bounds a max fold. -/
theorem foldl_max_le (l : List Time) (a B : Time) (ha : a ≤ B) (hl : ∀ x ∈ l, x ≤ B) :
    l.foldl max a ≤ B := by
  induction l generalizing a with
  | nil => exact ha
  | cons y ys ih =>
      exact ih _ (max_le ha (hl y (by simp))) (fun x hx => hl x (by simp [hx]))

/-- The seed of a min fold is an upper bound of the result. -/
theorem foldl_min_le (l : List Time) (a : Time) : l.foldl min a ≤ a := by
  induction l generalizing a with
  | nil => exact le_refl a
  | cons x xs ih => exact le_trans (ih (min a x)) (min_le_left a x)

/-- Every element of the list is an upper bound of a min fold. -/
theorem foldl_min_le_mem (l : List Time) (a x : Time) (hx : x ∈ l) : l.foldl min a ≤ x := by
  induction l generalizing a with
  | nil => cases hx
  | cons y ys ih =>
      rcases List.mem_cons.mp hx with h | h
      · subst h
        exact le_trans (foldl_min_le ys (min a x)) (min_le_right a x)
      · exact ih _ h

/-- A lower bound of the seed and all elements bounds a min fold below. -/
theorem le_foldl_min (l : List Time) (a B : Time) (ha : B ≤ a) (hl : ∀ x ∈ l, B ≤ x) :
    B ≤ l.foldl min a := by
  induction l generalizing a with
  | nil => exact ha
  | cons y ys ih =>
      exact ih _ (le_min ha (hl y (by simp))) (fun x hx => hl x (by simp [hx]))

/-- The onDONE time_last aggregation dominates every child's time_last. -/
theorem aggLast_ge_mem (cs : List ChildT) (c : ChildT) (hc : c ∈ cs) :
    c.tl ≤ aggLast cs := by
  match cs with
  | [] => cases hc
  | c0 :: rest =>
      rcases List.mem_cons.mp hc with h | h
      · subst h
        show c.tl ≤ rest.foldl (fun a x => max a x.tl) c.tl
        rw [← List.foldl_map]
        exact le_foldl_max _ _
      · show c.tl ≤ rest.foldl (fun a x => max a x.tl) c0.tl
        rw [← List.foldl_map]
        exact mem_le_foldl_max _ _ _ (List.mem_map_of_mem _ h)

/-- The onDONE time_last aggregation stays below any bound of all the
children's time_last. -/
theorem aggLast_le (cs : List ChildT) (B : Time) (hne : cs ≠ [])
    (hb : ∀ c ∈ cs, c.tl ≤ B) : aggLast cs ≤ B := by
  match cs with
  | [] => exact absurd rfl hne
  | c0 :: rest =>
      show rest.foldl (fun a x => max a x.tl) c0.tl ≤ B
      rw [← List.foldl_map]
      refine foldl_max_le _ _ _ (hb c0 (by simp)) ?_
      intro x hx
      obtain ⟨c, hcm, rfl⟩ := List.mem_map.mp hx
      exact hb c (List.mem_cons_of_mem _ hcm)

/-- The onDONE time_next aggregation is below every child's time_next. -/
theorem aggNext_le_mem (cs : List ChildT) (c : ChildT) (hc : c ∈ cs) :
    aggNext cs ≤ c.tn := by
  match cs with
  | [] => cases hc
  | c0 :: rest =>
      rcases List.mem_cons.mp hc with h | h
      · subst h
        show rest.foldl (fun a x => min a x.tn) c.tn ≤ c.tn
        rw [← List.foldl_map]
        exact foldl_min_le _ _
      · show rest.foldl (fun a x => min a x.tn) c0.tn ≤ c.tn
        rw [← List.foldl_map]
        exact foldl_min_le_mem _ _ _ (List.mem_map_of_mem _ h)

/-- The onDONE time_next aggregation dominates any lower bound of all the
children's time_next. -/
theorem aggNext_ge (cs : List ChildT) (B : Time) (hne : cs ≠ [])
    (hb : ∀ c ∈ cs, B ≤ c.tn) : B ≤ aggNext cs := by
  match cs with
  | [] => exact absurd rfl hne
  | c0 :: rest =>
      show B ≤ rest.foldl (fun a x => min a x.tn) c0.tn
      rw [← List.foldl_map]
      refine le_foldl_min _ _ _ (hb c0 (by simp)) ?_
      intro x hx
      obtain ⟨c, hcm, rfl⟩ := List.mem_map.mp hx
      exact hb c (List.mem_cons_of_mem _ hcm)

/-- A round does not change the number of children. -/
theorem length_applyRound (t : Time) (upds : List (ℕ × Time)) (cs : List ChildT) :
    (applyRound t upds cs).length = cs.length := by
  unfold applyRound
  induction upds generalizing cs with
  | nil => rfl
  | cons u us ih => exact (ih _).trans (List.length_set cs u.1 _)

/-- Every child after a round is either an untouched old child or one
updated to the round clocks (t, t + d) for some listed time advance d. -/
theorem mem_applyRound (t : Time) (upds : List (ℕ × Time)) (cs : List ChildT)
    (c : ChildT) (hc : c ∈ applyRound t upds cs) :
    c ∈ cs ∨ ∃ u ∈ upds, c = ChildT.mk t (t + u.2) := by
  unfold applyRound at hc
  induction upds generalizing cs with
  | nil => exact Or.inl hc
  | cons u us ih =>
      rcases ih _ hc with h | ⟨u', hu', he⟩
      · rcases List.mem_or_eq_of_mem_set h with h' | h'
        · exact Or.inl h'
        · exact Or.inr ⟨u, by simp, h'⟩
      · exact Or.inr ⟨u', by simp [hu'], he⟩

/-- The inductive invariant holds in every reachable clock state. -/
theorem sysInv_reach (s : SysSt) (h : Reach s) : SysInv s := by
  induction h with
  | init ds hne hd =>
      have hne' : ds.map (fun d => ChildT.mk (0 : Time) ((0 : Time) + d)) ≠ [] := by
        simpa using hne
      refine ⟨hne', ?_, rfl, rfl, ?_, ?_⟩
      · intro c hc c' hc'
        obtain ⟨d, hdm, rfl⟩ := List.mem_map.mp hc
        obtain ⟨d', hdm', rfl⟩ := List.mem_map.mp hc'
        exact le_add_of_nonneg_right (hd d' hdm')
      · show ((-1 : ℤ) : Time) ≤ (0 : Time)
        decide
      · refine aggNext_ge _ _ hne' ?_
        intro c hc
        obtain ⟨d, hdm, rfl⟩ := List.mem_map.mp hc
        exact le_add_of_nonneg_right (hd d hdm)
  | round s hs t upds ht hd ih =>
      obtain ⟨hne, hcross, hctl, hctn, hrr, hrc⟩ := ih
      have hmem : ∀ c ∈ applyRound t upds s.children,
          c ∈ s.children ∨ ∃ u ∈ upds, c = ChildT.mk t (t + u.2) :=
        fun c hc => mem_applyRound t upds s.children c hc
      have hne' : applyRound t upds s.children ≠ [] := by
        intro hcontr
        apply hne
        have := length_applyRound t upds s.children
        rw [hcontr] at this
        exact List.length_eq_zero.mp this.symm
      have hold_le_t : ∀ c ∈ s.children, c.tl ≤ t := by
        intro c hc
        rw [ht, hctn]
        exact aggNext_ge _ _ hne (fun c' hc' => hcross c hc c' hc')
      have ht_le_old : ∀ c ∈ s.children, t ≤ c.tn := by
        intro c hc
        rw [ht, hctn]
        exact aggNext_le_mem _ _ hc
      refine ⟨hne', ?_, rfl, rfl, ?_, ?_⟩
      · intro c hc c' hc'
        rcases hmem c hc with h1 | ⟨u, _, rfl⟩ <;>
          rcases hmem c' hc' with h2 | ⟨u', hu', rfl⟩
        · exact hcross c h1 c' h2
        · exact le_trans (hold_le_t c h1) (le_add_of_nonneg_right (hd u' hu'))
        · exact ht_le_old c' h2
        · exact le_add_of_nonneg_right (hd u' hu')
      · show s.rtTn ≤ t
        rw [ht]
        exact hrc
      · show t ≤ aggNext (applyRound t upds s.children)
        refine aggNext_ge _ _ hne' ?_
        intro c hc
        rcases hmem c hc with h1 | ⟨u, hu, rfl⟩
        · exact ht_le_old c h1
        · exact le_add_of_nonneg_right (hd u hu)

/-- Claim C4: in every reachable state of the simulator tree, with every
time-advance value nonnegative or +infinity, every simulator (each atomic
child, the coupled simulator, the root coordinator) satisfies
time_last le time_next. -/
theorem c4_theorem (s : SysSt) (h : Reach s) :
    (∀ c ∈ s.children, c.tl ≤ c.tn) ∧ s.cpTl ≤ s.cpTn ∧ s.rtTl ≤ s.rtTn := by
  obtain ⟨hne, hcross, hctl, hctn, hrr, _⟩ := sysInv_reach s h
  refine ⟨fun c hc => hcross c hc c hc, ?_, hrr⟩
  rw [hctl, hctn]
  refine aggLast_le _ _ hne ?_
  intro c hc
  exact aggNext_ge _ _ hne (fun c' hc' => hcross c hc c' hc')

/-- Witness for c4_theorem: the base state of a tree with one child whose
initial time advance is 0. -/
theorem c4_witness :
    ∃ s, Reach s ∧
      ((∀ c ∈ s.children, c.tl ≤ c.tn) ∧ s.cpTl ≤ s.cpTn ∧ s.rtTl ≤ s.rtTn) := by
  have h0 : ([(0 : Time)] : List Time) ≠ [] := by simp
  have h1 : ∀ d ∈ ([(0 : Time)] : List Time), (0 : Time) ≤ d := by simp
  exact ⟨_, Reach.init [(0 : Time)] h0 h1, c4_theorem _ (Reach.init [(0 : Time)] h0 h1)⟩

end YapDevs
